import Mathlib

/-
Shallow embedding of the ArcGIS summarization components of this repository:
  - langchain/chains/arcgis/layer/base.py        (ArcGISLayerSummaryChain)
  - langchain/document_transformers/arcgis_row_summarizer.py
                                                 (ArcGISRowSummaryTransformer)
  - langchain/document_transformers/arcgis_layer_summarizer.py
                                                 (LayerSummarizer)
External collaborators (the LLM backend, the prompt template renderer, and
json.loads) are parameters of the embedding: oracle functions supplied at the
call site. Python exceptions are modelled with Option / Except.
-/

/-- The result of parsing a JSON string (what json.loads returns on success).
Numbers are modelled as integers; no verified property depends on numeric
semantics, only on parse success/failure and on value equality. -/
inductive Json : Type where
  | null : Json
  | bool : Bool → Json
  | num : Int → Json
  | str : String → Json
  | arr : List Json → Json
  | obj : List (String × Json) → Json

mutual
/-- A value stored under a key of a document's metadata dict.  The keys this
system reads and writes hold strings (name, item_description,
layer_description, summary), parsed JSON attribute records (attributes), or a
list of documents (input_docs, written by the layer summarizer). -/
inductive MetaValue : Type where
  | str : String → MetaValue
  | json : Json → MetaValue
  | docs : List Document → MetaValue

/-- langchain.schema.Document: a page_content string plus a metadata dict,
modelled as an insertion-ordered association list (Python dicts never hold a
key twice; lookups read the first occurrence). -/
inductive Document : Type where
  | mk : String → List (String × MetaValue) → Document
end

def Document.page_content : Document → String
  | .mk c _ => c

def Document.metadata : Document → List (String × MetaValue)
  | .mk _ m => m

/-- The string stored in a metadata value; none when it is not a string
(the modelled domain: every key the code reads as a string holds a string,
as a non-string would fail inside the external framework anyway). -/
def MetaValue.asStr : MetaValue → Option String
  | .str s => some s
  | _ => none

/-- Python dict read `m[k]`: first matching entry, none models the KeyError. -/
def dictGet {α : Type} (k : String) : List (String × α) → Option α
  | [] => none
  | (k', v) :: rest => if k' = k then some v else dictGet k rest

/-- Python dict write `m[k] = v`: overwrite in place when the key exists
(position preserved), otherwise append at the end (insertion order). -/
def dictSet {α : Type} (k : String) (v : α) : List (String × α) → List (String × α)
  | [] => [(k, v)]
  | (k', v') :: rest => if k' = k then (k, v) :: rest else (k', v') :: dictSet k v rest

/-- One generated text of the LLM response (langchain.schema.Generation). -/
structure Generation : Type where
  text : String

/-- The LLM response: a list of generation lists, one inner list per prompt
(langchain.schema.LLMResult). -/
structure LLMResult : Type where
  generations : List (List Generation)

/-- chains/arcgis/layer/base.py: the chain's own pydantic state that the
verified properties depend on.  output_key is a field with default "text";
the llm and the prompt template are oracle parameters of call/acall. -/
structure ArcGISLayerSummaryChain : Type where
  output_key : String := "text"

/-- output_keys property: `return [self.output_key]`. -/
def ArcGISLayerSummaryChain.output_keys (c : ArcGISLayerSummaryChain) : List String :=
  [c.output_key]

/-- `_call` (Lean does not allow the leading underscore of the source name):
format the prompt from the inputs, run llm.generate_prompt, and return
`{self.output_key: response.generations[0][0].text}`.  `fmt` is the external
prompt template boundary, `gen` the blocking model round-trip; none models
the IndexError when the response has no first generation. -/
def ArcGISLayerSummaryChain.call (c : ArcGISLayerSummaryChain)
    (fmt : List (String × String) → String) (gen : String → LLMResult)
    (inputs : List (String × String)) : Option (List (String × String)) :=
  let prompt_value := fmt inputs
  let response := gen prompt_value
  match response.generations with
  | (g :: _) :: _ => some [(c.output_key, g.text)]
  | _ => none

/-- `_acall`: textually the same as `_call` except that the model round-trip
is the suspending llm.agenerate_prompt, modelled by its own oracle `agen`
(suspension itself leaves no trace in the result). -/
def ArcGISLayerSummaryChain.acall (c : ArcGISLayerSummaryChain)
    (fmt : List (String × String) → String) (agen : String → LLMResult)
    (inputs : List (String × String)) : Option (List (String × String)) :=
  let prompt_value := fmt inputs
  let response := agen prompt_value
  match response.generations with
  | (g :: _) :: _ => some [(c.output_key, g.text)]
  | _ => none

/-- Modelled from the spec: `ArcGISRowSummaryChain.apply`.  The row chain's
module (langchain/chains/arcgis/row/base.py) is code of this repository that
is not under src/; spec section 4.1 states it returns a `{text: string}`
mapping per input and that batched invocation preserves input order.  The
model round-trip is the oracle `model`. -/
def ArcGISRowSummaryChain.apply
    (model : List (String × String) → String)
    (inputs : List (List (String × String))) : List (List (String × String)) :=
  inputs.map (fun input => [("text", model input)])

/-- Modelled from the spec: the suspending variant `aapply` of the row chain
(spec sections 4.1 and 5): same contract, its own oracle `amodel`. -/
def ArcGISRowSummaryChain.aapply
    (amodel : List (String × String) → String)
    (inputs : List (List (String × String))) : List (List (String × String)) :=
  inputs.map (fun input => [("text", amodel input)])

/-- desc_from_doc: read item_description and layer_description from the
metadata and join them with a newline (`"\n".join((item_desc, layer_desc))`);
none models the KeyError on a missing key. -/
def ArcGISRowSummaryTransformer.desc_from_doc (doc : Document) : Option String := do
  let item_desc ← (dictGet "item_description" doc.metadata).bind MetaValue.asStr
  let layer_desc ← (dictGet "layer_description" doc.metadata).bind MetaValue.asStr
  pure (item_desc ++ "\n" ++ layer_desc)

/-- docs_to_inputs: per document the ChainInput dict
`{"name": metadata["name"], "desc": desc_from_doc(doc), "json_str": page_content}`.
A failure on any document aborts the whole list comprehension. -/
def ArcGISRowSummaryTransformer.docs_to_inputs (docs : List Document) :
    Option (List (List (String × String))) :=
  docs.mapM (fun doc => do
    let name ← (dictGet "name" doc.metadata).bind MetaValue.asStr
    let desc ← ArcGISRowSummaryTransformer.desc_from_doc doc
    pure [("name", name), ("desc", desc), ("json_str", doc.page_content)])

/-- summarize: build the inputs and read `result["text"]` out of every result
of the batched chain application. -/
def ArcGISRowSummaryTransformer.summarize
    (model : List (String × String) → String) (docs : List Document) :
    Option (List String) := do
  let inputs ← ArcGISRowSummaryTransformer.docs_to_inputs docs
  (ArcGISRowSummaryChain.apply model inputs).mapM (fun result => dictGet "text" result)

/-- asummarize: same as summarize through the suspending aapply. -/
def ArcGISRowSummaryTransformer.asummarize
    (amodel : List (String × String) → String) (docs : List Document) :
    Option (List String) := do
  let inputs ← ArcGISRowSummaryTransformer.docs_to_inputs docs
  (ArcGISRowSummaryChain.aapply amodel inputs).mapM (fun result => dictGet "text" result)

/-- return_docs: `for doc, summary in zip(docs, summaries):` set
`doc.metadata["attributes"] = json.loads(doc.page_content)` and then replace
`doc.page_content` with the summary, mutating the documents in place and
returning the same sequence.  The embedding returns the final state of the
document list: `.ok` on normal return; `.error` carries the state of the
documents at the moment json.loads raises mid-loop (the already-processed
prefix is mutated, the offending document and everything after it are not).
`parse` is the external json.loads, none modelling the raised ValueError. -/
def ArcGISRowSummaryTransformer.return_docs (parse : String → Option Json) :
    List Document → List String → Except (List Document) (List Document)
  | [], _ => .ok []
  | doc :: docs, [] => .ok (doc :: docs)
  | doc :: docs, summary :: summaries =>
    match parse doc.page_content with
    | none => .error (doc :: docs)
    | some attrs =>
      let doc' := Document.mk summary (dictSet "attributes" (MetaValue.json attrs) doc.metadata)
      match ArcGISRowSummaryTransformer.return_docs parse docs summaries with
      | .ok rest => .ok (doc' :: rest)
      | .error rest => .error (doc' :: rest)

/-- transform_documents: summarize, then return_docs.  A KeyError raised
while building the chain inputs propagates before any document is touched,
hence `.error documents` with the input state unchanged. -/
def ArcGISRowSummaryTransformer.transform_documents (parse : String → Option Json)
    (model : List (String × String) → String) (documents : List Document) :
    Except (List Document) (List Document) :=
  match ArcGISRowSummaryTransformer.summarize model documents with
  | none => .error documents
  | some summaries => ArcGISRowSummaryTransformer.return_docs parse documents summaries

/-- atransform_documents: same through asummarize. -/
def ArcGISRowSummaryTransformer.atransform_documents (parse : String → Option Json)
    (amodel : List (String × String) → String) (documents : List Document) :
    Except (List Document) (List Document) :=
  match ArcGISRowSummaryTransformer.asummarize amodel documents with
  | none => .error documents
  | some summaries => ArcGISRowSummaryTransformer.return_docs parse documents summaries

/-- summaries_str: read metadata["summary"] of every document, wrap each in
row_summary tags, join the groups with newlines and wrap the whole in the
layer_summary tags; none models the KeyError on a missing summary key. -/
def LayerSummarizer.summaries_str (docs : List Document) : Option String := do
  let summaries ← docs.mapM (fun doc => (dictGet "summary" doc.metadata).bind MetaValue.asStr)
  let sub_sums := String.intercalate "\n"
    (summaries.map (fun summary => "<row_summary>\n" ++ summary ++ "\n</row_summary>"))
  pure ("<layer_summary>\n" ++ sub_sums ++ "\n</layer_summary>")

/-- Modelled from the spec: `Chain.run` of the underlying framework — code of
this repository (a langchain fork) that is not under src/.  Spec section 4.2:
the layer chain accepts the single aggregated string and returns a
`{text: string}` mapping; the model round-trip is the oracle `model`. -/
def ArcGISLayerSummaryChain.run (model : String → String) (input : String) :
    List (String × String) :=
  [("text", model input)]

/-- Modelled from the spec: the suspending variant `arun` of the framework
(spec sections 4.2 and 5): same contract, its own oracle `amodel`. -/
def ArcGISLayerSummaryChain.arun (amodel : String → String) (input : String) :
    List (String × String) :=
  [("text", amodel input)]

/-- LayerSummarizer.summarize: build the aggregated string, run the chain on
it, and read `output["text"]`. -/
def LayerSummarizer.summarize (model : String → String) (docs : List Document) :
    Option String := do
  let input ← LayerSummarizer.summaries_str docs
  let output := ArcGISLayerSummaryChain.run model input
  dictGet "text" output

/-- LayerSummarizer.asummarize: same through the suspending arun. -/
def LayerSummarizer.asummarize (amodel : String → String) (docs : List Document) :
    Option String := do
  let input ← LayerSummarizer.summaries_str docs
  let output := ArcGISLayerSummaryChain.arun amodel input
  dictGet "text" output

/-- LayerSummarizer.transform_documents: summarize the whole sequence and
return one fresh Document with the summary as content and the single-entry
metadata `{"input_docs": documents}`. -/
def LayerSummarizer.transform_documents (model : String → String)
    (documents : List Document) : Option Document := do
  let summary ← LayerSummarizer.summarize model documents
  pure (Document.mk summary [("input_docs", MetaValue.docs documents)])

/-- LayerSummarizer.atransform_documents: same through asummarize. -/
def LayerSummarizer.atransform_documents (amodel : String → String)
    (documents : List Document) : Option Document := do
  let summary ← LayerSummarizer.asummarize amodel documents
  pure (Document.mk summary [("input_docs", MetaValue.docs documents)])

/-! ## Helper lemmas -/

theorem dictGet_dictSet_self {α : Type} (k : String) (v : α) (m : List (String × α)) :
    dictGet k (dictSet k v m) = some v := by
  induction m with
  | nil => simp [dictGet, dictSet]
  | cons hd tl ih =>
    obtain ⟨k1, v1⟩ := hd
    by_cases h : k1 = k
    · simp [dictGet, dictSet, h]
    · simp [dictGet, dictSet, h, ih]

theorem dictGet_dictSet_ne {α : Type} (k k' : String) (v : α) (m : List (String × α))
    (h : k' ≠ k) : dictGet k' (dictSet k v m) = dictGet k' m := by
  induction m with
  | nil =>
    simp only [dictSet, dictGet]
    rw [if_neg (fun hh => h hh.symm)]
  | cons hd tl ih =>
    obtain ⟨k1, v1⟩ := hd
    by_cases hk : k1 = k
    · subst hk
      simp only [dictSet, if_pos rfl, dictGet]
      rw [if_neg (fun hh => h hh.symm), if_neg (fun hh => h hh.symm)]
    · simp only [dictSet, if_neg hk, dictGet]
      by_cases hk2 : k1 = k'
      · rw [if_pos hk2, if_pos hk2]
      · rw [if_neg hk2, if_neg hk2, ih]

theorem mapM_option_spec {α β : Type} (f : α → Option β) (xs : List α) :
    ∀ {ys : List β}, xs.mapM f = some ys →
      ys.length = xs.length ∧
      ∀ i (h1 : i < xs.length) (h2 : i < ys.length),
        f (xs.get ⟨i, h1⟩) = some (ys.get ⟨i, h2⟩) := by
  induction xs with
  | nil =>
    intro ys h
    simp only [List.mapM_nil, Option.pure_def, Option.some.injEq] at h
    subst h
    exact ⟨rfl, fun i h1 _ => absurd h1 (Nat.not_lt_zero i)⟩
  | cons x xs ih =>
    intro ys h
    simp only [List.mapM_cons, Option.pure_def, Option.bind_eq_bind,
      Option.bind_eq_some, Option.some.injEq] at h
    obtain ⟨y, hy, ys', hys', hcons⟩ := h
    subst hcons
    obtain ⟨hlen, hidx⟩ := ih hys'
    refine ⟨by simp [hlen], fun i h1 h2 => ?_⟩
    match i with
    | 0 => exact hy
    | Nat.succ i =>
      exact hidx i (Nat.lt_of_succ_lt_succ (by simpa using h1))
        (Nat.lt_of_succ_lt_succ (by simpa using h2))

theorem apply_mapM_text (model : List (String × String) → String)
    (inputs : List (List (String × String))) :
    (ArcGISRowSummaryChain.apply model inputs).mapM (fun result => dictGet "text" result) =
      some (inputs.map model) := by
  rw [← List.mapM'_eq_mapM]
  induction inputs with
  | nil => rfl
  | cons i is ih =>
    simp only [ArcGISRowSummaryChain.apply, List.map_cons, List.mapM'_cons] at ih ⊢
    simp [dictGet, ih]

theorem row_summarize_eq (model : List (String × String) → String)
    (docs : List Document) (inputs : List (List (String × String)))
    (hin : ArcGISRowSummaryTransformer.docs_to_inputs docs = some inputs) :
    ArcGISRowSummaryTransformer.summarize model docs = some (inputs.map model) := by
  unfold ArcGISRowSummaryTransformer.summarize
  rw [hin]
  exact apply_mapM_text model inputs

theorem return_docs_ok (parse : String → Option Json) (docs : List Document) :
    ∀ (sums : List String), docs.length = sums.length →
      (∀ d ∈ docs, (parse d.page_content).isSome) →
      ∃ out, ArcGISRowSummaryTransformer.return_docs parse docs sums = .ok out ∧
        out.length = docs.length ∧
        ∀ i (h1 : i < docs.length) (h2 : i < sums.length) (h3 : i < out.length) (j : Json),
          parse ((docs.get ⟨i, h1⟩).page_content) = some j →
          out.get ⟨i, h3⟩ = Document.mk (sums.get ⟨i, h2⟩)
            (dictSet "attributes" (MetaValue.json j) ((docs.get ⟨i, h1⟩).metadata)) := by
  induction docs with
  | nil =>
    intro sums _ _
    exact ⟨[], rfl, rfl, fun i h1 => absurd h1 (Nat.not_lt_zero i)⟩
  | cons doc docs ih =>
    intro sums hlen hvalid
    match sums with
    | [] => simp at hlen
    | sum :: sums =>
      obtain ⟨attrs, hattrs⟩ :=
        Option.isSome_iff_exists.mp (hvalid doc (List.mem_cons_self doc docs))
      obtain ⟨out, hout, hlenout, hidx⟩ := ih sums (by simpa using hlen)
        (fun d hd => hvalid d (List.mem_cons_of_mem doc hd))
      refine ⟨Document.mk sum (dictSet "attributes" (MetaValue.json attrs) doc.metadata) :: out,
        ?_, by simp [hlenout], ?_⟩
      · simp only [ArcGISRowSummaryTransformer.return_docs, hattrs, hout]
      · intro i h1 h2 h3 j hj
        cases i with
        | zero =>
          have hj' : parse doc.page_content = some j := hj
          have heq := hj'.symm.trans hattrs
          injection heq with heq
          subst heq
          rfl
        | succ i =>
          exact hidx i (Nat.lt_of_succ_lt_succ h1) (Nat.lt_of_succ_lt_succ h2)
            (Nat.lt_of_succ_lt_succ h3) j hj

theorem return_docs_error (parse : String → Option Json) (pre : List Document) :
    ∀ (bad : Document) (post : List Document) (sums : List String),
      (∀ d ∈ pre, (parse d.page_content).isSome) →
      parse bad.page_content = none →
      pre.length < sums.length →
      ∃ mdocs, ArcGISRowSummaryTransformer.return_docs parse (pre ++ bad :: post) sums =
          .error (mdocs ++ bad :: post) ∧
        mdocs.length = pre.length ∧
        ∀ i (h1 : i < pre.length) (h2 : i < sums.length) (h3 : i < mdocs.length)
          (j : Json), parse ((pre.get ⟨i, h1⟩).page_content) = some j →
          mdocs.get ⟨i, h3⟩ = Document.mk (sums.get ⟨i, h2⟩)
            (dictSet "attributes" (MetaValue.json j) ((pre.get ⟨i, h1⟩).metadata)) := by
  induction pre with
  | nil =>
    intro bad post sums _ hbad hlen
    match sums with
    | [] => simp at hlen
    | sum :: sums =>
      refine ⟨[], ?_, rfl, fun i h1 => absurd h1 (Nat.not_lt_zero i)⟩
      simp only [List.nil_append, ArcGISRowSummaryTransformer.return_docs, hbad]
  | cons p ps ih =>
    intro bad post sums hpre hbad hlen
    match sums with
    | [] => simp at hlen
    | sum :: sums =>
      obtain ⟨attrs, hattrs⟩ :=
        Option.isSome_iff_exists.mp (hpre p (List.mem_cons_self p ps))
      obtain ⟨mdocs, hmdocs, hlenmdocs, hidx⟩ := ih bad post sums
        (fun d hd => hpre d (List.mem_cons_of_mem p hd)) hbad (by simpa using hlen)
      refine ⟨Document.mk sum (dictSet "attributes" (MetaValue.json attrs) p.metadata) :: mdocs,
        ?_, by simp [hlenmdocs], ?_⟩
      · simp only [List.cons_append, ArcGISRowSummaryTransformer.return_docs, hattrs,
          List.append_eq, hmdocs]
      · intro i h1 h2 h3 j hj
        cases i with
        | zero =>
          have hj' : parse p.page_content = some j := hj
          have heq := hj'.symm.trans hattrs
          injection heq with heq
          subst heq
          rfl
        | succ i =>
          exact hidx i (Nat.lt_of_succ_lt_succ h1) (Nat.lt_of_succ_lt_succ h2)
            (Nat.lt_of_succ_lt_succ h3) j hj

theorem summaries_str_spec (docs : List Document) (ss : List String)
    (h : docs.mapM (fun doc => (dictGet "summary" doc.metadata).bind MetaValue.asStr) =
      some ss) :
    LayerSummarizer.summaries_str docs =
      some ("<layer_summary>\n" ++ String.intercalate "\n"
        (ss.map (fun s => "<row_summary>\n" ++ s ++ "\n</row_summary>")) ++
        "\n</layer_summary>") := by
  unfold LayerSummarizer.summaries_str
  rw [h]
  rfl

/-! ## Concrete sample objects used by the witnesses -/

/-- A concrete instance of the json.loads oracle: accepts exactly "[]". -/
def parseW : String → Option Json := fun s => if s = "[]" then some (Json.arr []) else none

/-- A concrete row-chain model oracle. -/
def modelW : List (String × String) → String := fun _ => "SUMMARY"

/-- Row metadata with the three required keys plus a residual key. -/
def rowMetaW : List (String × MetaValue) :=
  [("name", MetaValue.str "N"), ("item_description", MetaValue.str "I"),
    ("layer_description", MetaValue.str "L"), ("extra", MetaValue.str "E")]

/-- A row document whose content is valid JSON. -/
def docW : Document := Document.mk "[]" rowMetaW

/-- A row document whose content is not valid JSON. -/
def badDocW : Document := Document.mk "oops" rowMetaW

/-- The ChainInput built from docW. -/
def inputW : List (String × String) :=
  [("name", "N"), ("desc", "I\nL"), ("json_str", "[]")]

/-- The ChainInput built from badDocW. -/
def badInputW : List (String × String) :=
  [("name", "N"), ("desc", "I\nL"), ("json_str", "oops")]

/-- A row-summarized document carrying summary "A". -/
def sumDocA : Document := Document.mk "ca" [("summary", MetaValue.str "A")]

/-- A row-summarized document carrying summary "B". -/
def sumDocB : Document := Document.mk "cb" [("summary", MetaValue.str "B")]

/-- A concrete LLM backend oracle: one response with one generation "T". -/
def genW : String → LLMResult := fun _ => LLMResult.mk [[Generation.mk "T"]]

/-- A concrete prompt-template oracle. -/
def fmtW : List (String × String) → String := fun _ => "PROMPT"

/-- A concrete layer-chain model oracle. -/
def lmodelW : String → String := fun _ => "LAYERSUM"

/-! ## Claims -/

/-- Claim C1: for every sequence of input documents whose metadata contains the
keys name, item_description and layer_description (so that docs_to_inputs
succeeds, yielding `inputs`) and whose content is valid JSON,
ArcGISRowSummaryTransformer.transform_documents returns a sequence of the same
length in the same order, where the i-th output document's content equals the
model's i-th returned summary text (the chain applied to the i-th built input)
and its metadata attributes entry equals the JSON parse of the i-th input
document's original content. -/
theorem claim_C1_row_transform (parse : String → Option Json)
    (model : List (String × String) → String)
    (documents : List Document) (inputs : List (List (String × String)))
    (hin : ArcGISRowSummaryTransformer.docs_to_inputs documents = some inputs)
    (hparse : ∀ d ∈ documents, (parse d.page_content).isSome) :
    ∃ out, ArcGISRowSummaryTransformer.transform_documents parse model documents =
        Except.ok out ∧
      out.length = documents.length ∧
      ∀ i (h1 : i < documents.length) (h2 : i < inputs.length) (h3 : i < out.length)
        (j : Json), parse ((documents.get ⟨i, h1⟩).page_content) = some j →
        (out.get ⟨i, h3⟩).page_content = model (inputs.get ⟨i, h2⟩) ∧
        dictGet "attributes" ((out.get ⟨i, h3⟩).metadata) = some (MetaValue.json j) := by
  have hlen_in : inputs.length = documents.length :=
    (mapM_option_spec _ documents hin).1
  have hsum := row_summarize_eq model documents inputs hin
  have hlen_sums : documents.length = (inputs.map model).length := by
    simp [hlen_in]
  obtain ⟨out, hout, hlenout, hidx⟩ :=
    return_docs_ok parse documents (inputs.map model) hlen_sums hparse
  refine ⟨out, ?_, hlenout, ?_⟩
  · unfold ArcGISRowSummaryTransformer.transform_documents
    rw [hsum]
    exact hout
  · intro i h1 h2 h3 j hj
    have h2' : i < (inputs.map model).length := by
      simpa using h2
    have hget := hidx i h1 h2' h3 j hj
    rw [hget]
    refine ⟨?_, dictGet_dictSet_self _ _ _⟩
    show (inputs.map model).get ⟨i, h2'⟩ = model (inputs.get ⟨i, h2⟩)
    simp [List.get_eq_getElem]

/-- Witness for claim C1 at the concrete one-document input docW. -/
theorem claim_C1_row_transform_witness :
    (ArcGISRowSummaryTransformer.docs_to_inputs [docW] = some [inputW]) ∧
    (∀ d ∈ [docW], (parseW d.page_content).isSome) ∧
    ∃ out, ArcGISRowSummaryTransformer.transform_documents parseW modelW [docW] =
        Except.ok out ∧
      out.length = [docW].length ∧
      ∀ i (h1 : i < [docW].length) (h2 : i < [inputW].length) (h3 : i < out.length)
        (j : Json), parseW (([docW].get ⟨i, h1⟩).page_content) = some j →
        (out.get ⟨i, h3⟩).page_content = modelW ([inputW].get ⟨i, h2⟩) ∧
        dictGet "attributes" ((out.get ⟨i, h3⟩).metadata) = some (MetaValue.json j) := by
  have h1 : ArcGISRowSummaryTransformer.docs_to_inputs [docW] = some [inputW] := rfl
  have h2 : ∀ d ∈ [docW], (parseW d.page_content).isSome := by
    intro d hd
    rw [List.mem_singleton] at hd
    subst hd
    rfl
  exact ⟨h1, h2, claim_C1_row_transform parseW modelW [docW] [inputW] h1 h2⟩

/-- Claim C9: under the same preconditions as C1, transform_documents returns
the final state of the very documents it was given (the embedding threads the
in-place mutation as the returned list), and for each document it changes only
the content and the attributes metadata entry: the attributes key is set to
the parsed JSON, and every other metadata key (name, item_description,
layer_description, and any residual key) keeps its original value. -/
theorem claim_C9_row_frame (parse : String → Option Json)
    (model : List (String × String) → String)
    (documents : List Document) (inputs : List (List (String × String)))
    (hin : ArcGISRowSummaryTransformer.docs_to_inputs documents = some inputs)
    (hparse : ∀ d ∈ documents, (parse d.page_content).isSome) :
    ∃ out, ArcGISRowSummaryTransformer.transform_documents parse model documents =
        Except.ok out ∧
      out.length = documents.length ∧
      ∀ i (h1 : i < documents.length) (h3 : i < out.length),
        (∀ j : Json, parse ((documents.get ⟨i, h1⟩).page_content) = some j →
          dictGet "attributes" ((out.get ⟨i, h3⟩).metadata) = some (MetaValue.json j)) ∧
        ∀ k : String, k ≠ "attributes" →
          dictGet k ((out.get ⟨i, h3⟩).metadata) =
            dictGet k ((documents.get ⟨i, h1⟩).metadata) := by
  have hlen_in : inputs.length = documents.length :=
    (mapM_option_spec _ documents hin).1
  have hsum := row_summarize_eq model documents inputs hin
  have hlen_sums : documents.length = (inputs.map model).length := by
    simp [hlen_in]
  obtain ⟨out, hout, hlenout, hidx⟩ :=
    return_docs_ok parse documents (inputs.map model) hlen_sums hparse
  refine ⟨out, ?_, hlenout, ?_⟩
  · unfold ArcGISRowSummaryTransformer.transform_documents
    rw [hsum]
    exact hout
  · intro i h1 h3
    have h2' : i < (inputs.map model).length := hlen_sums ▸ h1
    obtain ⟨j0, hj0⟩ := Option.isSome_iff_exists.mp
      (hparse (documents.get ⟨i, h1⟩) (documents.get_mem i h1))
    have hget := hidx i h1 h2' h3 j0 hj0
    constructor
    · intro j hj
      have heq := hj0.symm.trans hj
      injection heq with heq
      subst heq
      rw [hget]
      exact dictGet_dictSet_self _ _ _
    · intro k hk
      rw [hget]
      exact dictGet_dictSet_ne _ _ _ _ hk

/-- Witness for claim C9 at the concrete one-document input docW, whose
metadata carries the residual key "extra". -/
theorem claim_C9_row_frame_witness :
    (ArcGISRowSummaryTransformer.docs_to_inputs [docW] = some [inputW]) ∧
    (∀ d ∈ [docW], (parseW d.page_content).isSome) ∧
    ∃ out, ArcGISRowSummaryTransformer.transform_documents parseW modelW [docW] =
        Except.ok out ∧
      out.length = [docW].length ∧
      ∀ i (h1 : i < [docW].length) (h3 : i < out.length),
        (∀ j : Json, parseW (([docW].get ⟨i, h1⟩).page_content) = some j →
          dictGet "attributes" ((out.get ⟨i, h3⟩).metadata) = some (MetaValue.json j)) ∧
        ∀ k : String, k ≠ "attributes" →
          dictGet k ((out.get ⟨i, h3⟩).metadata) =
            dictGet k (([docW].get ⟨i, h1⟩).metadata) := by
  have h1 : ArcGISRowSummaryTransformer.docs_to_inputs [docW] = some [inputW] := rfl
  have h2 : ∀ d ∈ [docW], (parseW d.page_content).isSome := by
    intro d hd
    rw [List.mem_singleton] at hd
    subst hd
    rfl
  exact ⟨h1, h2, claim_C9_row_frame parseW modelW [docW] [inputW] h1 h2⟩

/-- Counterexample to claim C2 as stated: on the input [docW, badDocW], where
only the second document's content fails to parse, the call fails — but the
first input document has been mutated in place: its content was replaced by
the summary and an attributes entry was appended to its metadata. -/
theorem claim_C2_counterexample :
    ArcGISRowSummaryTransformer.transform_documents parseW modelW [docW, badDocW] =
      Except.error [Document.mk "SUMMARY"
        (rowMetaW ++ [("attributes", MetaValue.json (Json.arr []))]), badDocW] ∧
    (Document.mk "SUMMARY"
      (rowMetaW ++ [("attributes", MetaValue.json (Json.arr []))])).page_content ≠
      docW.page_content := by
  refine ⟨rfl, ?_⟩
  decide

/-- Claim C2 (amended): if any input document's content is not valid JSON (and
the metadata keys are present so the chain inputs can be built), the call
fails before producing any output sequence; the first invalid document and all
documents after it are left unchanged, while each document before it has
already been mutated in place: its content is replaced by its summary (the
model applied to its built input) and its attributes entry is set to the JSON
parse of its original content, the rest of its metadata untouched. -/
theorem claim_C2_amended (parse : String → Option Json)
    (model : List (String × String) → String)
    (pre : List Document) (bad : Document) (post : List Document)
    (inputs : List (List (String × String)))
    (hin : ArcGISRowSummaryTransformer.docs_to_inputs (pre ++ bad :: post) = some inputs)
    (hpre : ∀ d ∈ pre, (parse d.page_content).isSome)
    (hbad : parse bad.page_content = none) :
    ∃ mdocs, ArcGISRowSummaryTransformer.transform_documents parse model
        (pre ++ bad :: post) = Except.error (mdocs ++ bad :: post) ∧
      mdocs.length = pre.length ∧
      ∀ i (h1 : i < pre.length) (h2 : i < inputs.length) (h3 : i < mdocs.length)
        (j : Json), parse ((pre.get ⟨i, h1⟩).page_content) = some j →
        mdocs.get ⟨i, h3⟩ = Document.mk (model (inputs.get ⟨i, h2⟩))
          (dictSet "attributes" (MetaValue.json j) ((pre.get ⟨i, h1⟩).metadata)) := by
  have hsum := row_summarize_eq model (pre ++ bad :: post) inputs hin
  have hlen_in : inputs.length = (pre ++ bad :: post).length :=
    (mapM_option_spec _ _ hin).1
  have hlt : pre.length < (inputs.map model).length := by
    rw [List.length_map, hlen_in, List.length_append, List.length_cons]
    omega
  obtain ⟨mdocs, hmd, hl, hidx⟩ :=
    return_docs_error parse pre bad post (inputs.map model) hpre hbad hlt
  refine ⟨mdocs, ?_, hl, ?_⟩
  · unfold ArcGISRowSummaryTransformer.transform_documents
    rw [hsum]
    exact hmd
  · intro i h1 h2 h3 j hj
    have h2' : i < (inputs.map model).length := by
      simpa using h2
    have hget : (inputs.map model).get ⟨i, h2'⟩ = model (inputs.get ⟨i, h2⟩) := by
      simp [List.get_eq_getElem]
    rw [hidx i h1 h2' h3 j hj, hget]

/-- Witness for the amended claim C2 at the concrete input [docW, badDocW]. -/
theorem claim_C2_amended_witness :
    (ArcGISRowSummaryTransformer.docs_to_inputs ([docW] ++ badDocW :: []) =
      some [inputW, badInputW]) ∧
    (∀ d ∈ [docW], (parseW d.page_content).isSome) ∧
    (parseW badDocW.page_content = none) ∧
    ∃ mdocs, ArcGISRowSummaryTransformer.transform_documents parseW modelW
        ([docW] ++ badDocW :: []) = Except.error (mdocs ++ badDocW :: []) ∧
      mdocs.length = [docW].length ∧
      ∀ i (h1 : i < [docW].length) (h2 : i < [inputW, badInputW].length)
        (h3 : i < mdocs.length) (j : Json),
        parseW (([docW].get ⟨i, h1⟩).page_content) = some j →
        mdocs.get ⟨i, h3⟩ = Document.mk (modelW ([inputW, badInputW].get ⟨i, h2⟩))
          (dictSet "attributes" (MetaValue.json j) (([docW].get ⟨i, h1⟩).metadata)) := by
  have h1 : ArcGISRowSummaryTransformer.docs_to_inputs ([docW] ++ badDocW :: []) =
      some [inputW, badInputW] := rfl
  have h2 : ∀ d ∈ [docW], (parseW d.page_content).isSome := by
    intro d hd
    rw [List.mem_singleton] at hd
    subst hd
    rfl
  have h3 : parseW badDocW.page_content = none := rfl
  exact ⟨h1, h2, h3,
    claim_C2_amended parseW modelW [docW] badDocW [] [inputW, badInputW] h1 h2 h3⟩

/-- Counterexample to claim C5 as stated: the ChainInput built from docW has
no key "description" at all — the joined description is stored under the key
"desc". -/
theorem claim_C5_counterexample :
    ArcGISRowSummaryTransformer.docs_to_inputs [docW] = some [inputW] ∧
    dictGet "description" inputW = none ∧
    dictGet "desc" inputW = some "I\nL" := ⟨rfl, rfl, rfl⟩

/-- Claim C5 (amended): for every input document, the row transformer builds a
ChainInput mapping with keys name, desc and json_str, where name is
metadata["name"], desc is metadata["item_description"] joined to
metadata["layer_description"] by a single newline, and json_str is the
document's content. -/
theorem claim_C5_amended (docs : List Document) (inputs : List (List (String × String)))
    (hin : ArcGISRowSummaryTransformer.docs_to_inputs docs = some inputs) :
    inputs.length = docs.length ∧
    ∀ i (h1 : i < docs.length) (h2 : i < inputs.length) (name item layer : String),
      dictGet "name" ((docs.get ⟨i, h1⟩).metadata) = some (MetaValue.str name) →
      dictGet "item_description" ((docs.get ⟨i, h1⟩).metadata) = some (MetaValue.str item) →
      dictGet "layer_description" ((docs.get ⟨i, h1⟩).metadata) = some (MetaValue.str layer) →
      inputs.get ⟨i, h2⟩ =
        [("name", name), ("desc", item ++ "\n" ++ layer),
          ("json_str", (docs.get ⟨i, h1⟩).page_content)] := by
  obtain ⟨hlen, hidx⟩ := mapM_option_spec _ docs hin
  refine ⟨hlen, fun i h1 h2 name item layer hn hi hl => ?_⟩
  have hd : ArcGISRowSummaryTransformer.desc_from_doc (docs.get ⟨i, h1⟩) =
      some (item ++ "\n" ++ layer) := by
    unfold ArcGISRowSummaryTransformer.desc_from_doc
    rw [hi, hl]
    rfl
  have key := hidx i h1 h2
  simp only [hn, hd, MetaValue.asStr, Option.bind_eq_bind, Option.some_bind,
    Option.pure_def, Option.some.injEq] at key
  exact key.symm

/-- Witness for the amended claim C5 at the concrete one-document input docW. -/
theorem claim_C5_amended_witness :
    (ArcGISRowSummaryTransformer.docs_to_inputs [docW] = some [inputW]) ∧
    [inputW].length = [docW].length ∧
    ∀ i (h1 : i < [docW].length) (h2 : i < [inputW].length) (name item layer : String),
      dictGet "name" (([docW].get ⟨i, h1⟩).metadata) = some (MetaValue.str name) →
      dictGet "item_description" (([docW].get ⟨i, h1⟩).metadata) = some (MetaValue.str item) →
      dictGet "layer_description" (([docW].get ⟨i, h1⟩).metadata) = some (MetaValue.str layer) →
      [inputW].get ⟨i, h2⟩ =
        [("name", name), ("desc", item ++ "\n" ++ layer),
          ("json_str", (([docW].get ⟨i, h1⟩)).page_content)] := by
  have h1 : ArcGISRowSummaryTransformer.docs_to_inputs [docW] = some [inputW] := rfl
  obtain ⟨ha, hb⟩ := claim_C5_amended [docW] [inputW] h1
  exact ⟨h1, ha, hb⟩

/-- Claim C3: for every sequence of documents each carrying a string
metadata["summary"], the layer summarizer builds the chain input by wrapping
each summary in row_summary tags, joining the groups with newlines and
wrapping the whole in layer_summary tags, and summarize invokes the chain
(the model oracle) on exactly that string. -/
theorem claim_C3_summaries_format (docs : List Document) (ss : List String)
    (h : docs.mapM (fun doc => (dictGet "summary" doc.metadata).bind MetaValue.asStr) =
      some ss) :
    LayerSummarizer.summaries_str docs =
      some ("<layer_summary>\n" ++ String.intercalate "\n"
        (ss.map (fun s => "<row_summary>\n" ++ s ++ "\n</row_summary>")) ++
        "\n</layer_summary>") ∧
    ∀ model : String → String, LayerSummarizer.summarize model docs =
      some (model ("<layer_summary>\n" ++ String.intercalate "\n"
        (ss.map (fun s => "<row_summary>\n" ++ s ++ "\n</row_summary>")) ++
        "\n</layer_summary>")) := by
  have hs := summaries_str_spec docs ss h
  refine ⟨hs, fun model => ?_⟩
  unfold LayerSummarizer.summarize
  rw [hs]
  rfl

/-- Witness for claim C3 at the two documents with summaries "A" and "B":
the built string is byte-for-byte the one the claim names. -/
theorem claim_C3_witness :
    ([sumDocA, sumDocB].mapM
      (fun doc => (dictGet "summary" doc.metadata).bind MetaValue.asStr) =
      some ["A", "B"]) ∧
    LayerSummarizer.summaries_str [sumDocA, sumDocB] =
      some "<layer_summary>\n<row_summary>\nA\n</row_summary>\n<row_summary>\nB\n</row_summary>\n</layer_summary>" ∧
    LayerSummarizer.summarize lmodelW [sumDocA, sumDocB] =
      some (lmodelW "<layer_summary>\n<row_summary>\nA\n</row_summary>\n<row_summary>\nB\n</row_summary>\n</layer_summary>") := by
  have h : [sumDocA, sumDocB].mapM
      (fun doc => (dictGet "summary" doc.metadata).bind MetaValue.asStr) =
      some ["A", "B"] := rfl
  obtain ⟨h1, h2⟩ := claim_C3_summaries_format [sumDocA, sumDocB] ["A", "B"] h
  exact ⟨h, h1, h2 lmodelW⟩

/-- Claim C4: for every sequence of input documents (whose summaries_str
succeeds), LayerSummarizer.transform_documents produces and returns exactly
one new document whose content equals the text returned by the layer chain
and whose metadata is exactly the single-entry mapping sending input_docs to
the original input sequence. -/
theorem claim_C4_layer_transform (model : String → String) (documents : List Document)
    (s : String) (h : LayerSummarizer.summaries_str documents = some s) :
    LayerSummarizer.transform_documents model documents =
      some (Document.mk (model s) [("input_docs", MetaValue.docs documents)]) := by
  unfold LayerSummarizer.transform_documents LayerSummarizer.summarize
  rw [h]
  rfl

/-- Witness for claim C4 at the concrete two-document input. -/
theorem claim_C4_layer_transform_witness :
    (LayerSummarizer.summaries_str [sumDocA, sumDocB] =
      some "<layer_summary>\n<row_summary>\nA\n</row_summary>\n<row_summary>\nB\n</row_summary>\n</layer_summary>") ∧
    LayerSummarizer.transform_documents lmodelW [sumDocA, sumDocB] =
      some (Document.mk "LAYERSUM"
        [("input_docs", MetaValue.docs [sumDocA, sumDocB])]) := by
  have h : LayerSummarizer.summaries_str [sumDocA, sumDocB] =
      some "<layer_summary>\n<row_summary>\nA\n</row_summary>\n<row_summary>\nB\n</row_summary>\n</layer_summary>" := rfl
  exact ⟨h, claim_C4_layer_transform lmodelW [sumDocA, sumDocB] _ h⟩

/-- Claim C6: when the blocking and the suspending model oracles return
identical responses, the blocking and the suspending variants coincide:
_call equals _acall on every input mapping, and the sync and async
summarize/transform methods of both transformers produce equal results. -/
theorem claim_C6_sync_async_agree
    (c : ArcGISLayerSummaryChain) (fmt : List (String × String) → String)
    (gen agen : String → LLMResult)
    (rmodel armodel : List (String × String) → String)
    (lmodel almodel : String → String)
    (parse : String → Option Json)
    (inputs : List (String × String)) (documents : List Document)
    (hg : ∀ p, gen p = agen p)
    (hr : ∀ i, rmodel i = armodel i)
    (hl : ∀ s, lmodel s = almodel s) :
    c.call fmt gen inputs = c.acall fmt agen inputs ∧
    ArcGISRowSummaryTransformer.summarize rmodel documents =
      ArcGISRowSummaryTransformer.asummarize armodel documents ∧
    ArcGISRowSummaryTransformer.transform_documents parse rmodel documents =
      ArcGISRowSummaryTransformer.atransform_documents parse armodel documents ∧
    LayerSummarizer.summarize lmodel documents =
      LayerSummarizer.asummarize almodel documents ∧
    LayerSummarizer.transform_documents lmodel documents =
      LayerSummarizer.atransform_documents almodel documents := by
  obtain rfl : gen = agen := funext hg
  obtain rfl : rmodel = armodel := funext hr
  obtain rfl : lmodel = almodel := funext hl
  exact ⟨rfl, rfl, rfl, rfl, rfl⟩

/-- Witness for claim C6 at concrete oracles (the sync and async oracles are
the same function, hence pointwise equal). -/
theorem claim_C6_sync_async_agree_witness :
    (∀ p, genW p = genW p) ∧ (∀ i, modelW i = modelW i) ∧ (∀ s, lmodelW s = lmodelW s) ∧
    ((ArcGISLayerSummaryChain.mk "text").call fmtW genW [] =
      (ArcGISLayerSummaryChain.mk "text").acall fmtW genW []) ∧
    (ArcGISRowSummaryTransformer.summarize modelW [docW] =
      ArcGISRowSummaryTransformer.asummarize modelW [docW]) ∧
    (ArcGISRowSummaryTransformer.transform_documents parseW modelW [docW] =
      ArcGISRowSummaryTransformer.atransform_documents parseW modelW [docW]) ∧
    (LayerSummarizer.summarize lmodelW [docW] =
      LayerSummarizer.asummarize lmodelW [docW]) ∧
    (LayerSummarizer.transform_documents lmodelW [docW] =
      LayerSummarizer.atransform_documents lmodelW [docW]) := by
  have hg : ∀ p, genW p = genW p := fun _ => rfl
  have hr : ∀ i, modelW i = modelW i := fun _ => rfl
  have hl : ∀ s, lmodelW s = lmodelW s := fun _ => rfl
  obtain ⟨c1, c2, c3, c4, c5⟩ := claim_C6_sync_async_agree
    (ArcGISLayerSummaryChain.mk "text") fmtW genW genW modelW modelW lmodelW lmodelW
    parseW [] [docW] hg hr hl
  exact ⟨hg, hr, hl, c1, c2, c3, c4, c5⟩

/-- Counterexample to claim C7 as stated: output_key is a configurable field
with default "text"; a chain constructed with output_key "summary" has
output_keys ["summary"], not ["text"], and _call returns its result under the
key "summary", so the returned mapping has no "text" entry. -/
theorem claim_C7_counterexample :
    (ArcGISLayerSummaryChain.mk "summary").output_keys = ["summary"] ∧
    (ArcGISLayerSummaryChain.mk "summary").output_keys ≠ ["text"] ∧
    (ArcGISLayerSummaryChain.mk "summary").call fmtW genW [] =
      some [("summary", "T")] ∧
    dictGet "text" [("summary", "T")] = none := by
  refine ⟨rfl, ?_, rfl, rfl⟩
  decide

/-- Claim C7 (amended): whenever the model response has a first generation,
_call returns a mapping containing exactly one key, the chain's output_key,
whose value is the text of that first generation; output_keys always equals
the one-element list [output_key], which is ["text"] for the default
output_key "text". -/
theorem claim_C7_amended (c : ArcGISLayerSummaryChain)
    (fmt : List (String × String) → String) (gen : String → LLMResult)
    (inputs : List (String × String)) (g : Generation) (gs : List Generation)
    (gss : List (List Generation))
    (h : (gen (fmt inputs)).generations = (g :: gs) :: gss) :
    c.call fmt gen inputs = some [(c.output_key, g.text)] ∧
    c.output_keys = [c.output_key] ∧
    (ArcGISLayerSummaryChain.mk "text").output_keys = ["text"] := by
  refine ⟨?_, rfl, rfl⟩
  simp only [ArcGISLayerSummaryChain.call]
  rw [h]

/-- Witness for the amended claim C7 at the default-configured chain and a
one-generation response. -/
theorem claim_C7_amended_witness :
    ((genW (fmtW [])).generations = (Generation.mk "T" :: []) :: []) ∧
    ((ArcGISLayerSummaryChain.mk "text").call fmtW genW [] = some [("text", "T")] ∧
      (ArcGISLayerSummaryChain.mk "text").output_keys = ["text"] ∧
      (ArcGISLayerSummaryChain.mk "text").output_keys = ["text"]) := by
  have h : (genW (fmtW [])).generations = (Generation.mk "T" :: []) :: [] := rfl
  exact ⟨h, claim_C7_amended (ArcGISLayerSummaryChain.mk "text") fmtW genW []
    (Generation.mk "T") [] [] h⟩

/-- Claim C8: LayerSummarizer.transform_documents does not mutate its input
documents — the embedding is pure and the returned document stores the
original input sequence unchanged under input_docs — and the returned
document is a newly constructed value distinct from every input document. -/
theorem claim_C8_layer_no_mutation (model : String → String)
    (documents : List Document) (s : String)
    (h : LayerSummarizer.summaries_str documents = some s) :
    ∃ out, LayerSummarizer.transform_documents model documents = some out ∧
      out.page_content = model s ∧
      out.metadata = [("input_docs", MetaValue.docs documents)] ∧
      out ∉ documents := by
  refine ⟨Document.mk (model s) [("input_docs", MetaValue.docs documents)],
    ?_, rfl, rfl, ?_⟩
  · unfold LayerSummarizer.transform_documents LayerSummarizer.summarize
    rw [h]
    rfl
  · intro hmem
    have hlt := List.sizeOf_lt_of_mem hmem
    simp only [Document.mk.sizeOf_spec, List.cons.sizeOf_spec, List.nil.sizeOf_spec,
      Prod.mk.sizeOf_spec, MetaValue.docs.sizeOf_spec] at hlt
    omega

/-- Witness for claim C8 at the concrete one-document input. -/
theorem claim_C8_layer_no_mutation_witness :
    (LayerSummarizer.summaries_str [sumDocA] =
      some "<layer_summary>\n<row_summary>\nA\n</row_summary>\n</layer_summary>") ∧
    ∃ out, LayerSummarizer.transform_documents lmodelW [sumDocA] = some out ∧
      out.page_content =
        lmodelW "<layer_summary>\n<row_summary>\nA\n</row_summary>\n</layer_summary>" ∧
      out.metadata = [("input_docs", MetaValue.docs [sumDocA])] ∧
      out ∉ [sumDocA] := by
  have h : LayerSummarizer.summaries_str [sumDocA] =
      some "<layer_summary>\n<row_summary>\nA\n</row_summary>\n</layer_summary>" := rfl
  exact ⟨h, claim_C8_layer_no_mutation lmodelW [sumDocA] _ h⟩

/-- Claim C10: on the empty input sequence, the layer summarizer still builds
the wrapper string with an empty body, invokes the chain on exactly that
string (the content of the result is the model oracle applied to it, for
every oracle), and returns one document whose input_docs metadata entry is
the empty sequence. -/
theorem claim_C10_empty_layer (model : String → String) :
    LayerSummarizer.summaries_str [] = some "<layer_summary>\n\n</layer_summary>" ∧
    LayerSummarizer.transform_documents model [] =
      some (Document.mk (model "<layer_summary>\n\n</layer_summary>")
        [("input_docs", MetaValue.docs [])]) := ⟨rfl, rfl⟩
